import Mathlib

/-!
Shallow embedding of the seelog `dispatchers` package (dispatcher.go).

A `dispatcher` owns a formatter, an ordered list of `FormattedWriter`s and an
ordered list of child dispatchers.  `Dispatch` fans a log event out to the
writers and then the children; `Flush` drains children first, then writers;
`Close` tears down children first, then writers, failing fast on the first
close error.  Operations are modelled as pure functions producing a trace of
observable events (writer writes, error-callback invocations, sink flushes and
sink closes) so that ordering and error-propagation claims can be stated.
-/

namespace Dispatchers

/-- A raw sink (`io.Writer` in the source).  The behavioural fields record what
the external sink does when the dispatcher interacts with it: `writeErr` is the
error returned by the enclosing `FormattedWriter.Write` for a given
(message, level, context); `hasFlush` / `hasClose` say whether the dynamic
capability probes (`.(FlusherInterface)` / `.(io.Closer)`) succeed; `closeErr`
is the error returned by `Close` when the sink is closable; `wrapErr` is the
error `NewFormattedWriter` reports when asked to wrap this sink; `str` is the
sink's diagnostic rendering; `id` identifies the sink in event traces. -/
structure Sink where
  id : Nat
  writeErr : String → Nat → Nat → Option String
  hasFlush : Bool
  hasClose : Bool
  closeErr : Option String
  wrapErr : Option String
  str : String

/-- A `FormattedWriter` (package common) binds one sink to one formatter.
`Writer` is the accessor the dispatcher uses for capability probing; `str` is
the writer's diagnostic rendering used by the dispatcher's `String`. -/
structure FormattedWriter where
  Writer : Sink
  str : String

/-- A formatter; only its diagnostic rendering is observed by the dispatcher. -/
structure Formatter where
  str : String

/-- The dispatcher tree node: `type dispatcher struct { formatter; writers;
dispatchers }`.  Children are modelled as concrete dispatcher nodes. -/
inductive Dispatcher where
  | mk (formatter : Formatter) (writers : List FormattedWriter)
       (dispatchers : List Dispatcher)

/-- Observable events produced by dispatcher operations. -/
inductive Event where
  | write (id : Nat) (msg : String) (level : Nat) (ctx : Nat)
  | errCb (e : String)
  | flushEv (id : Nat)
  | closeEv (id : Nat)
deriving DecidableEq

/-- `disp.formatter`. -/
def Dispatcher.formatter : Dispatcher → Formatter
  | .mk f _ _ => f

/-- `func (disp *dispatcher) Writers() []*FormattedWriter`. -/
def Dispatcher.Writers : Dispatcher → List FormattedWriter
  | .mk _ ws _ => ws

/-- `func (disp *dispatcher) Dispatchers() []DispatcherInterface`. -/
def Dispatcher.Dispatchers : Dispatcher → List Dispatcher
  | .mk _ _ ds => ds

/-- A receiver passed to `createDispatcher` is an `interface{}` value; the
three fields record the result of the three type assertions the source
performs, in the order it performs them: `*FormattedWriter`, `io.Writer`,
`DispatcherInterface`.  A value may satisfy several interfaces at once. -/
structure Receiver where
  asFormattedWriter : Option FormattedWriter
  asIoWriter : Option Sink
  asDispatcher : Option Dispatcher

/-- Modelled from the spec: `NewFormattedWriter` (package common, whose source
is not among the visible files) binds a raw sink to the shared formatter and
returns the new `FormattedWriter`, propagating any wrapping error. -/
def NewFormattedWriter (s : Sink) (f : Formatter) : Except String FormattedWriter :=
  match s.wrapErr with
  | some e => .error e
  | none => .ok ⟨s, s.str ++ " [" ++ f.str ++ "]"⟩

/-- The receiver-classification loop of `createDispatcher`, transcribed as a
recursion: try `*FormattedWriter`, then `io.Writer` (wrapping it, propagating
the wrapping error), then `DispatcherInterface`, else fail. -/
def createDispatcherAux (f : Formatter) :
    List Receiver → Except String (List FormattedWriter × List Dispatcher)
  | [] => .ok ([], [])
  | r :: rest =>
    match r.asFormattedWriter with
    | some w =>
      match createDispatcherAux f rest with
      | .ok (ws, ds) => .ok (w :: ws, ds)
      | .error e => .error e
    | none =>
      match r.asIoWriter with
      | some s =>
        match NewFormattedWriter s f with
        | .error e => .error e
        | .ok w =>
          match createDispatcherAux f rest with
          | .ok (ws, ds) => .ok (w :: ws, ds)
          | .error e => .error e
      | none =>
        match r.asDispatcher with
        | some d =>
          match createDispatcherAux f rest with
          | .ok (ws, ds) => .ok (ws, d :: ds)
          | .error e => .error e
        | none => .error "Method can receive either io.Writer or DispatcherInterface"

/-- `func createDispatcher(formatter *format.Formatter, receivers []interface{})
(*dispatcher, error)`: nil-formatter check, empty-receivers check, then the
classification loop. -/
def createDispatcher (formatter : Option Formatter) (receivers : List Receiver) :
    Except String Dispatcher :=
  match formatter with
  | none => .error "Formatter can not be nil"
  | some f =>
    if receivers.length = 0 then .error "Receivers can not be nil or empty"
    else
      match createDispatcherAux f receivers with
      | .ok (ws, ds) => .ok (.mk f ws ds)
      | .error e => .error e

/-- One iteration of the writer loop in `Dispatch`: `err := writer.Write(...);
if err != nil { errorFunc(err) }`.  The write invocation is always recorded;
an error additionally records the callback invocation. -/
def writeStep (msg : String) (lvl ctx : Nat) (w : FormattedWriter) : List Event :=
  match w.Writer.writeErr msg lvl ctx with
  | none => [.write w.Writer.id msg lvl ctx]
  | some e => [.write w.Writer.id msg lvl ctx, .errCb e]

mutual
/-- `func (disp *dispatcher) Dispatch(...)`: writers first, then children. -/
def Dispatcher.Dispatch : Dispatcher → String → Nat → Nat → List Event
  | .mk _ ws ds, msg, lvl, ctx =>
    (ws.map (writeStep msg lvl ctx)).flatten ++ Dispatcher.DispatchList ds msg lvl ctx

/-- The child loop of `Dispatch`. -/
def Dispatcher.DispatchList : List Dispatcher → String → Nat → Nat → List Event
  | [], _, _, _ => []
  | d :: rest, msg, lvl, ctx =>
    d.Dispatch msg lvl ctx ++ Dispatcher.DispatchList rest msg lvl ctx
end

/-- The writer loop of `Flush`: probe each sink for `FlusherInterface` and
flush it when the probe succeeds, silently skipping it otherwise. -/
def flushWriters : List FormattedWriter → List Event
  | [] => []
  | w :: rest =>
    (if w.Writer.hasFlush then [Event.flushEv w.Writer.id] else []) ++ flushWriters rest

mutual
/-- `func (disp *dispatcher) Flush()`: children first, then own writers. -/
def Dispatcher.Flush : Dispatcher → List Event
  | .mk _ ws ds => Dispatcher.FlushList ds ++ flushWriters ws

/-- The child loop of `Flush`. -/
def Dispatcher.FlushList : List Dispatcher → List Event
  | [] => []
  | d :: rest => d.Flush ++ Dispatcher.FlushList rest
end

/-- The writer loop of `Close`: flush the sink if it is flushable, close it if
it is closable, returning the first close error immediately. -/
def closeWriters : List FormattedWriter → List Event × Option String
  | [] => ([], none)
  | w :: rest =>
    let fl := if w.Writer.hasFlush then [Event.flushEv w.Writer.id] else []
    if w.Writer.hasClose then
      match w.Writer.closeErr with
      | some e => (fl ++ [Event.closeEv w.Writer.id], some e)
      | none =>
        match closeWriters rest with
        | (tr, r) => (fl ++ Event.closeEv w.Writer.id :: tr, r)
    else
      match closeWriters rest with
      | (tr, r) => (fl ++ tr, r)

mutual
/-- `func (disp *dispatcher) Close() error`: children first (each flushed, then
closed, failing fast on a close error), then own writers. -/
def Dispatcher.Close : Dispatcher → List Event × Option String
  | .mk _ ws ds =>
    match Dispatcher.CloseList ds with
    | (tr, some e) => (tr, some e)
    | (tr, none) =>
      match closeWriters ws with
      | (tr2, r) => (tr ++ tr2, r)

/-- The child loop of `Close`: flush the child, close it, fail fast. -/
def Dispatcher.CloseList : List Dispatcher → List Event × Option String
  | [] => ([], none)
  | d :: rest =>
    match d.Close with
    | (tr, some e) => (d.Flush ++ tr, some e)
    | (tr, none) =>
      match Dispatcher.CloseList rest with
      | (tr2, r) => (d.Flush ++ tr ++ tr2, r)
end

/-- The writer loop of `String`: `str += fmt.Sprintf("        ->%s\n", writer)`. -/
def writersString : List FormattedWriter → String
  | [] => ""
  | w :: rest => "        ->" ++ w.str ++ "\n" ++ writersString rest

mutual
/-- `func (disp *dispatcher) String() string`: formatter line, dispatchers
section ("none" when empty), writers section ("none" when empty). -/
def Dispatcher.toString : Dispatcher → String
  | .mk f ws ds =>
    let s1 := "Formatter: " ++ f.str ++ "\n"
    let s2 := s1 ++ "    ->Dispatchers:"
    let s3 :=
      if ds.length = 0 then s2 ++ "none\n"
      else s2 ++ "\n" ++ Dispatcher.toStringList ds
    let s4 := s3 ++ "    ->Writers:"
    if ws.length = 0 then s4 ++ "none\n"
    else s4 ++ "\n" ++ writersString ws

/-- The child loop of `String`: `str += fmt.Sprintf("        ->%s", disp)`. -/
def Dispatcher.toStringList : List Dispatcher → String
  | [] => ""
  | d :: rest => "        ->" ++ d.toString ++ Dispatcher.toStringList rest
end

mutual
/-- All writers owned by the subtree rooted at a node, own writers first. -/
def Dispatcher.allWriters : Dispatcher → List FormattedWriter
  | .mk _ ws ds => ws ++ Dispatcher.allWritersList ds

def Dispatcher.allWritersList : List Dispatcher → List FormattedWriter
  | [] => []
  | d :: rest => d.allWriters ++ Dispatcher.allWritersList rest
end

/-- Number of error-callback invocations in a trace. -/
def countErrCb (tr : List Event) : Nat :=
  tr.countP fun ev => match ev with | .errCb _ => true | _ => false

/-- Number of write invocations on the sink with the given id in a trace. -/
def countWrite (i : Nat) (tr : List Event) : Nat :=
  tr.countP fun ev => match ev with | .write j _ _ _ => j == i | _ => false

/-- Number of flush invocations on the sink with the given id in a trace. -/
def countFlush (i : Nat) (tr : List Event) : Nat :=
  tr.countP fun ev => match ev with | .flushEv j => j == i | _ => false

/-- Dispatch a sequence of (message, level, context) events through a tree. -/
def Dispatcher.DispatchMany (d : Dispatcher) (msgs : List (String × Nat × Nat)) :
    List Event :=
  (msgs.map fun m => d.Dispatch m.1 m.2.1 m.2.2).flatten

/-- The events `Close` produces for one writer: flush its sink if flushable,
then close it if closable. -/
def flushCloseW (w : FormattedWriter) : List Event :=
  (if w.Writer.hasFlush then [Event.flushEv w.Writer.id] else [])
  ++ (if w.Writer.hasClose then [Event.closeEv w.Writer.id] else [])

/-- A writer whose sink close (if attempted) succeeds. -/
def writerCloseOK (w : FormattedWriter) : Bool :=
  !w.Writer.hasClose || w.Writer.closeErr.isNone

mutual
/-- No closable sink anywhere in the subtree reports a close error. -/
def Dispatcher.noCloseErr : Dispatcher → Bool
  | .mk _ ws ds => ws.all writerCloseOK && Dispatcher.noCloseErrList ds

def Dispatcher.noCloseErrList : List Dispatcher → Bool
  | [] => true
  | d :: rest => d.noCloseErr && Dispatcher.noCloseErrList rest
end

mutual
/-- The trace an error-free `Close` produces: children first (each child's
`Flush` followed by its own close trace), then the own writers. -/
def Dispatcher.closeTraceOk : Dispatcher → List Event
  | .mk _ ws ds => Dispatcher.closeTraceOkList ds ++ (ws.map flushCloseW).flatten

def Dispatcher.closeTraceOkList : List Dispatcher → List Event
  | [] => []
  | d :: rest => d.Flush ++ d.closeTraceOk ++ Dispatcher.closeTraceOkList rest
end

/-- The events the child loop of `Close` produces for a sequence of children
that all close without error. -/
def closeSeq (ds : List Dispatcher) : List Event :=
  (ds.map fun d => d.Flush ++ d.Close.1).flatten

/-- Whether `createDispatcher` accepts this receiver, mirroring the
classification priority of the source. -/
def receiverOK (r : Receiver) : Bool :=
  match r.asFormattedWriter with
  | some _ => true
  | none =>
    match r.asIoWriter with
    | some s => s.wrapErr.isNone
    | none => r.asDispatcher.isSome

/-- The writer a receiver contributes, following the source's classification
priority: a `*FormattedWriter` is stored as-is; otherwise an `io.Writer` is
wrapped with the shared formatter. -/
def receiverWriter (f : Formatter) (r : Receiver) : Option FormattedWriter :=
  match r.asFormattedWriter with
  | some w => some w
  | none =>
    match r.asIoWriter with
    | some s =>
      match NewFormattedWriter s f with
      | .ok w => some w
      | .error _ => none
    | none => none

/-- The child a receiver contributes: only a receiver that is neither a
`*FormattedWriter` nor an `io.Writer` is stored as a child dispatcher. -/
def receiverChild (r : Receiver) : Option Dispatcher :=
  match r.asFormattedWriter with
  | some _ => none
  | none =>
    match r.asIoWriter with
    | some _ => none
    | none => r.asDispatcher

/-- State-passing form of `Dispatch`.  The Go method has a pointer receiver but
assigns to no field of `disp`, so the post-state equals the pre-state. -/
def Dispatcher.DispatchS (d : Dispatcher) (msg : String) (lvl ctx : Nat) :
    Dispatcher × List Event :=
  (d, d.Dispatch msg lvl ctx)

/-- State-passing form of `Flush`; the method assigns to no field. -/
def Dispatcher.FlushS (d : Dispatcher) : Dispatcher × List Event :=
  (d, d.Flush)

/-- State-passing form of `Close`; the method assigns to no field and the
`dispatcher` struct carries no closed flag. -/
def Dispatcher.CloseS (d : Dispatcher) : Dispatcher × List Event × Option String :=
  (d, d.Close)

/-- Fixture: a sink with flush and close capabilities and no errors. -/
def sinkOK (i : Nat) : Sink :=
  ⟨i, fun _ _ _ => none, true, true, none, none, "ok"⟩

/-- Fixture: a sink whose writes always fail. -/
def sinkWriteFail (i : Nat) : Sink :=
  ⟨i, fun _ _ _ => some "write failed", false, false, none, none, "bad"⟩

/-- Fixture: a closable sink whose close fails. -/
def sinkCloseFail (i : Nat) : Sink :=
  ⟨i, fun _ _ _ => none, true, true, some "close failed", none, "badclose"⟩

/-- Fixture: a sink with neither flush nor close capability. -/
def sinkNoCap (i : Nat) : Sink :=
  ⟨i, fun _ _ _ => none, false, false, none, none, "nocap"⟩

/-- Fixture: a leaf dispatcher with one error-free sink. -/
def dLeaf : Dispatcher := .mk ⟨"fmt"⟩ [⟨sinkOK 1, "w1"⟩] []

/-- Fixture: a parent with one error-free writer and the leaf child. -/
def dParent : Dispatcher := .mk ⟨"fmt"⟩ [⟨sinkOK 2, "w2"⟩] [dLeaf]

/-- Fixture: a leaf dispatcher whose sink fails to close. -/
def dLeafBad : Dispatcher := .mk ⟨"fmt"⟩ [⟨sinkCloseFail 3, "w3"⟩] []

/-- Fixture: a receiver satisfying none of the three interfaces. -/
def rBad : Receiver := ⟨none, none, none⟩

/-- Fixture: a receiver that is a prebuilt `*FormattedWriter`. -/
def rFW : Receiver := ⟨some ⟨sinkOK 1, "w1"⟩, none, none⟩

/-- Fixture: a receiver that is a raw `io.Writer` that wraps cleanly. -/
def rIo : Receiver := ⟨none, some (sinkNoCap 5), none⟩

/-- Fixture: a receiver that is a child dispatcher. -/
def rDisp : Receiver := ⟨none, none, some dLeaf⟩

/-- Fixture: a sink whose wrapping by `NewFormattedWriter` fails. -/
def sWrapBad : Sink := ⟨6, fun _ _ _ => none, false, false, none, some "wrap failed", "s6"⟩

/-- Fixture: a raw `io.Writer` receiver whose wrapping fails. -/
def rWrapBad : Receiver := ⟨none, some sWrapBad, none⟩

theorem DispatchList_eq_flatten (ds : List Dispatcher) (msg : String) (lvl ctx : Nat) :
    Dispatcher.DispatchList ds msg lvl ctx
      = (ds.map fun d => d.Dispatch msg lvl ctx).flatten := by
  induction ds with
  | nil => rfl
  | cons d rest ih => rw [Dispatcher.DispatchList, ih, List.map_cons, List.flatten_cons]

theorem FlushList_eq_flatten (ds : List Dispatcher) :
    Dispatcher.FlushList ds = (ds.map Dispatcher.Flush).flatten := by
  induction ds with
  | nil => rfl
  | cons d rest ih => rw [Dispatcher.FlushList, ih, List.map_cons, List.flatten_cons]

theorem flushWriters_eq_flatten (ws : List FormattedWriter) :
    flushWriters ws
      = (ws.map fun w =>
          if w.Writer.hasFlush then [Event.flushEv w.Writer.id] else []).flatten := by
  induction ws with
  | nil => rfl
  | cons w rest ih => rw [flushWriters, ih, List.map_cons, List.flatten_cons]

theorem allWritersList_eq_flatten (ds : List Dispatcher) :
    Dispatcher.allWritersList ds = (ds.map Dispatcher.allWriters).flatten := by
  induction ds with
  | nil => rfl
  | cons d rest ih => rw [Dispatcher.allWritersList, ih, List.map_cons, List.flatten_cons]

theorem write_self_mem_writeStep (w : FormattedWriter) (msg : String) (lvl ctx : Nat) :
    Event.write w.Writer.id msg lvl ctx ∈ writeStep msg lvl ctx w := by
  unfold writeStep
  cases w.Writer.writeErr msg lvl ctx <;> simp

theorem write_mem_Dispatch (msg : String) (lvl ctx : Nat) (d : Dispatcher) :
    ∀ w ∈ d.allWriters, Event.write w.Writer.id msg lvl ctx ∈ d.Dispatch msg lvl ctx := by
  induction d using Dispatcher.rec
    (motive_2 := fun ds => ∀ w ∈ Dispatcher.allWritersList ds,
      Event.write w.Writer.id msg lvl ctx ∈ Dispatcher.DispatchList ds msg lvl ctx) with
  | mk f ws ds ih =>
    intro w hw
    rw [Dispatcher.allWriters] at hw
    rw [Dispatcher.Dispatch]
    rcases List.mem_append.mp hw with h | h
    · exact List.mem_append_left _
        (List.mem_flatten.mpr
          ⟨writeStep msg lvl ctx w, List.mem_map_of_mem _ h,
            write_self_mem_writeStep w msg lvl ctx⟩)
    · exact List.mem_append_right _ (ih w h)
  | nil =>
    rename_i w hw
    simp [Dispatcher.allWritersList] at hw
  | cons d rest ihd ihrest =>
    rename_i w hw
    rw [Dispatcher.allWritersList] at hw
    rw [Dispatcher.DispatchList]
    rcases List.mem_append.mp hw with h | h
    · exact List.mem_append_left _ (ihd w h)
    · exact List.mem_append_right _ (ihrest w h)

theorem errCb_mem_Dispatch_of_writeErr (d : Dispatcher) (msg : String) (lvl ctx : Nat)
    (w : FormattedWriter) (e : String) (hw : w ∈ d.Writers)
    (he : w.Writer.writeErr msg lvl ctx = some e) :
    Event.errCb e ∈ d.Dispatch msg lvl ctx := by
  obtain ⟨f, ws, ds⟩ := d
  rw [Dispatcher.Dispatch]
  refine List.mem_append_left _ (List.mem_flatten.mpr
    ⟨writeStep msg lvl ctx w, List.mem_map_of_mem _ hw, ?_⟩)
  unfold writeStep
  rw [he]
  simp

theorem countErrCb_append (tr tr2 : List Event) :
    countErrCb (tr ++ tr2) = countErrCb tr + countErrCb tr2 :=
  List.countP_append _ _ _

theorem countWrite_append (i : Nat) (tr tr2 : List Event) :
    countWrite i (tr ++ tr2) = countWrite i tr + countWrite i tr2 :=
  List.countP_append _ _ _

theorem two_writer_Dispatch (f : Formatter) (w1 w2 : FormattedWriter)
    (msg : String) (lvl ctx : Nat) (e : String)
    (h1 : w1.Writer.writeErr msg lvl ctx = some e)
    (h2 : w2.Writer.writeErr msg lvl ctx = none) :
    (Dispatcher.mk f [w1, w2] []).Dispatch msg lvl ctx
      = [Event.write w1.Writer.id msg lvl ctx, Event.errCb e,
         Event.write w2.Writer.id msg lvl ctx] := by
  simp [Dispatcher.Dispatch, Dispatcher.DispatchList, writeStep, h1, h2]

theorem two_writer_counts (f : Formatter) (w1 w2 : FormattedWriter)
    (h1 : ∀ m l c, (w1.Writer.writeErr m l c).isSome = true)
    (h2 : ∀ m l c, w2.Writer.writeErr m l c = none)
    (hne : w1.Writer.id ≠ w2.Writer.id)
    (msgs : List (String × Nat × Nat)) :
    countErrCb ((Dispatcher.mk f [w1, w2] []).DispatchMany msgs) = msgs.length
    ∧ countWrite w2.Writer.id ((Dispatcher.mk f [w1, w2] []).DispatchMany msgs)
        = msgs.length := by
  induction msgs with
  | nil => exact ⟨rfl, rfl⟩
  | cons m rest ih =>
    obtain ⟨e, he⟩ := Option.isSome_iff_exists.mp (h1 m.1 m.2.1 m.2.2)
    have hstep := two_writer_Dispatch f w1 w2 m.1 m.2.1 m.2.2 e he (h2 m.1 m.2.1 m.2.2)
    have hmany : (Dispatcher.mk f [w1, w2] []).DispatchMany (m :: rest)
        = (Dispatcher.mk f [w1, w2] []).Dispatch m.1 m.2.1 m.2.2
          ++ (Dispatcher.mk f [w1, w2] []).DispatchMany rest := by
      simp [Dispatcher.DispatchMany]
    constructor
    · rw [hmany, countErrCb_append, ih.1, hstep]
      simp [countErrCb, List.countP_cons, Nat.add_comm]
    · rw [hmany, countWrite_append, ih.2, hstep]
      simp [countWrite, List.countP_cons, hne, Nat.add_comm]

/-- C1: Dispatch invokes Write on every owned writer in the tree; when a
writer's Write returns an error the error callback is invoked with that error
and delivery continues; with one always-failing and one always-succeeding
writer, N dispatched messages fire the callback exactly N times and deliver
all N messages to the succeeding writer. -/
theorem C1_dispatch_error_isolation :
    (∀ (d : Dispatcher) (msg : String) (lvl ctx : Nat),
        ∀ w ∈ d.allWriters, Event.write w.Writer.id msg lvl ctx ∈ d.Dispatch msg lvl ctx)
    ∧ (∀ (d : Dispatcher) (msg : String) (lvl ctx : Nat) (w : FormattedWriter) (e : String),
        w ∈ d.Writers → w.Writer.writeErr msg lvl ctx = some e →
        Event.errCb e ∈ d.Dispatch msg lvl ctx)
    ∧ (∀ (f : Formatter) (w1 w2 : FormattedWriter),
        (∀ m l c, (w1.Writer.writeErr m l c).isSome = true) →
        (∀ m l c, w2.Writer.writeErr m l c = none) →
        w1.Writer.id ≠ w2.Writer.id →
        ∀ msgs : List (String × Nat × Nat),
          countErrCb ((Dispatcher.mk f [w1, w2] []).DispatchMany msgs) = msgs.length
          ∧ countWrite w2.Writer.id ((Dispatcher.mk f [w1, w2] []).DispatchMany msgs)
              = msgs.length) :=
  ⟨fun d msg lvl ctx => write_mem_Dispatch msg lvl ctx d,
   fun d msg lvl ctx w e hw he => errCb_mem_Dispatch_of_writeErr d msg lvl ctx w e hw he,
   fun f w1 w2 h1 h2 hne msgs => two_writer_counts f w1 w2 h1 h2 hne msgs⟩

theorem closeWriters_cons_noClose (w : FormattedWriter) (rest : List FormattedWriter)
    (h : w.Writer.hasClose = false) :
    closeWriters (w :: rest)
      = ((if w.Writer.hasFlush then [Event.flushEv w.Writer.id] else [])
          ++ (closeWriters rest).1, (closeWriters rest).2) := by
  rw [closeWriters, h]
  rcases hR : closeWriters rest with ⟨tr, r⟩
  simp

theorem closeWriters_cons_ok (w : FormattedWriter) (rest : List FormattedWriter)
    (h : w.Writer.hasClose = true) (he : w.Writer.closeErr = none) :
    closeWriters (w :: rest)
      = ((if w.Writer.hasFlush then [Event.flushEv w.Writer.id] else [])
          ++ Event.closeEv w.Writer.id :: (closeWriters rest).1, (closeWriters rest).2) := by
  rw [closeWriters, h, he]
  rcases hR : closeWriters rest with ⟨tr, r⟩
  simp

theorem closeWriters_cons_err (w : FormattedWriter) (rest : List FormattedWriter)
    (e : String) (h : w.Writer.hasClose = true) (he : w.Writer.closeErr = some e) :
    closeWriters (w :: rest) = (flushCloseW w, some e) := by
  rw [closeWriters, h, he, flushCloseW, h]
  simp

theorem flushCloseW_eq_of_ok (w : FormattedWriter) (h : writerCloseOK w = true) :
    (closeWriters [w]).1 = flushCloseW w ∧ (closeWriters [w]).2 = none := by
  rw [writerCloseOK] at h
  rcases hc : w.Writer.hasClose with _ | _
  · rw [closeWriters_cons_noClose w [] hc, flushCloseW, hc]
    simp [closeWriters]
  · have he : w.Writer.closeErr = none := by
      rw [hc] at h
      simpa using h
    rw [closeWriters_cons_ok w [] hc he, flushCloseW, hc]
    simp [closeWriters]

theorem closeWriters_append_ok (l2 : List FormattedWriter) :
    ∀ l1 : List FormattedWriter, (∀ w ∈ l1, writerCloseOK w = true) →
      closeWriters (l1 ++ l2)
        = ((l1.map flushCloseW).flatten ++ (closeWriters l2).1, (closeWriters l2).2) := by
  intro l1
  induction l1 with
  | nil => intro _; simp
  | cons w rest ih =>
    intro hall
    have hw := hall w (List.mem_cons_self w rest)
    have hrest := ih fun v hv => hall v (List.mem_cons_of_mem w hv)
    rw [writerCloseOK] at hw
    rcases hc : w.Writer.hasClose with _ | _
    · rw [List.cons_append, closeWriters_cons_noClose w (rest ++ l2) hc, hrest]
      simp [flushCloseW, hc, List.append_assoc]
    · have he : w.Writer.closeErr = none := by
        rw [hc] at hw
        simpa using hw
      rw [List.cons_append, closeWriters_cons_ok w (rest ++ l2) hc he, hrest]
      simp [flushCloseW, hc, List.append_assoc]

theorem closeWriters_ok (ws : List FormattedWriter)
    (hall : ∀ w ∈ ws, writerCloseOK w = true) :
    closeWriters ws = ((ws.map flushCloseW).flatten, none) := by
  have := closeWriters_append_ok [] ws hall
  simpa [closeWriters] using this

theorem closeWriters_snd_none (ws : List FormattedWriter)
    (h : (closeWriters ws).2 = none) : ∀ w ∈ ws, writerCloseOK w = true := by
  induction ws with
  | nil => intro w hw; simp at hw
  | cons w rest ih =>
    intro v hv
    rcases hc : w.Writer.hasClose with _ | _
    · rw [closeWriters_cons_noClose w rest hc] at h
      rcases List.mem_cons.mp hv with h1 | h1
      · subst h1; simp [writerCloseOK, hc]
      · exact ih h v h1
    · rcases he : w.Writer.closeErr with _ | e
      · rw [closeWriters_cons_ok w rest hc he] at h
        rcases List.mem_cons.mp hv with h1 | h1
        · subst h1; simp [writerCloseOK, hc, he]
        · exact ih h v h1
      · rw [closeWriters_cons_err w rest e hc he] at h
        simp at h

theorem CloseList_cons_err (d : Dispatcher) (rest : List Dispatcher) (e : String)
    (h : d.Close.2 = some e) :
    Dispatcher.CloseList (d :: rest) = (d.Flush ++ d.Close.1, some e) := by
  rw [Dispatcher.CloseList]
  rcases hC : d.Close with ⟨tr, r⟩
  rw [hC] at h
  simp at h
  subst h
  simp

theorem CloseList_cons_ok (d : Dispatcher) (rest : List Dispatcher)
    (h : d.Close.2 = none) :
    Dispatcher.CloseList (d :: rest)
      = (d.Flush ++ d.Close.1 ++ (Dispatcher.CloseList rest).1,
         (Dispatcher.CloseList rest).2) := by
  rw [Dispatcher.CloseList]
  rcases hC : d.Close with ⟨tr, r⟩
  rw [hC] at h
  simp at h
  subst h
  rcases hR : Dispatcher.CloseList rest with ⟨tr2, r2⟩
  simp [List.append_assoc]

theorem CloseList_append_ok (l2 : List Dispatcher) :
    ∀ l1 : List Dispatcher, (∀ d ∈ l1, d.Close.2 = none) →
      Dispatcher.CloseList (l1 ++ l2)
        = (closeSeq l1 ++ (Dispatcher.CloseList l2).1, (Dispatcher.CloseList l2).2) := by
  intro l1
  induction l1 with
  | nil => intro _; simp [closeSeq]
  | cons d rest ih =>
    intro hall
    have hd := hall d (List.mem_cons_self d rest)
    have hrest := ih fun v hv => hall v (List.mem_cons_of_mem d hv)
    rw [List.cons_append, CloseList_cons_ok d (rest ++ l2) hd, hrest]
    simp [closeSeq, List.append_assoc]

theorem CloseList_ok (ds : List Dispatcher) (hall : ∀ d ∈ ds, d.Close.2 = none) :
    Dispatcher.CloseList ds = (closeSeq ds, none) := by
  have := CloseList_append_ok [] ds hall
  simpa [Dispatcher.CloseList] using this

theorem Close_mk_ok (f : Formatter) (ws : List FormattedWriter) (ds : List Dispatcher)
    (hds : ∀ d ∈ ds, d.Close.2 = none) (hws : ∀ w ∈ ws, writerCloseOK w = true) :
    (Dispatcher.mk f ws ds).Close
      = (closeSeq ds ++ (ws.map flushCloseW).flatten, none) := by
  rw [Dispatcher.Close, CloseList_ok ds hds, closeWriters_ok ws hws]

theorem Close_eq_of_noCloseErr (d : Dispatcher) :
    d.noCloseErr = true → d.Close = (d.closeTraceOk, none) := by
  induction d using Dispatcher.rec
    (motive_2 := fun ds => Dispatcher.noCloseErrList ds = true →
      Dispatcher.CloseList ds = (Dispatcher.closeTraceOkList ds, none)) with
  | mk f ws ds ih =>
    intro h
    rw [Dispatcher.noCloseErr, Bool.and_eq_true] at h
    rw [Dispatcher.Close, ih h.2,
      closeWriters_ok ws (List.all_eq_true.mp h.1), Dispatcher.closeTraceOk]
  | nil =>
    rfl
  | cons d rest ihd ihrest =>
    rename_i h
    rw [Dispatcher.noCloseErrList, Bool.and_eq_true] at h
    have hd := ihd h.1
    rw [Dispatcher.CloseList, hd, ihrest h.2, Dispatcher.closeTraceOkList]

theorem noCloseErr_of_Close_none (d : Dispatcher) :
    d.Close.2 = none → d.noCloseErr = true := by
  induction d using Dispatcher.rec
    (motive_2 := fun ds => (Dispatcher.CloseList ds).2 = none →
      Dispatcher.noCloseErrList ds = true) with
  | nil => rfl
  | mk f ws ds ih =>
    intro h
    rw [Dispatcher.Close] at h
    rcases hL : Dispatcher.CloseList ds with ⟨tr, r⟩
    rw [hL] at h
    rcases r with _ | e
    · rcases hW : closeWriters ws with ⟨tr2, r2⟩
      rw [hW] at h
      simp at h
      subst h
      rw [Dispatcher.noCloseErr, Bool.and_eq_true]
      refine ⟨List.all_eq_true.mpr (closeWriters_snd_none ws ?_), ih (by rw [hL])⟩
      rw [hW]
    · simp at h
  | cons d rest ihd ihrest =>
    rename_i h
    rw [Dispatcher.CloseList] at h
    rcases hC : d.Close with ⟨tr, r⟩
    rw [hC] at h
    rcases r with _ | e
    · rcases hR : Dispatcher.CloseList rest with ⟨tr2, r2⟩
      rw [hR] at h
      simp at h
      subst h
      rw [Dispatcher.noCloseErrList, Bool.and_eq_true]
      exact ⟨ihd (by rw [hC]), ihrest (by rw [hR])⟩
    · simp at h

theorem noCloseErrList_mem (ds : List Dispatcher)
    (h : Dispatcher.noCloseErrList ds = true) : ∀ d ∈ ds, d.noCloseErr = true := by
  induction ds with
  | nil => intro d hd; simp at hd
  | cons d rest ih =>
    rw [Dispatcher.noCloseErrList, Bool.and_eq_true] at h
    intro v hv
    rcases List.mem_cons.mp hv with h1 | h1
    · subst h1; exact h.1
    · exact ih h.2 v h1

theorem closeTraceOkList_append (l1 l2 : List Dispatcher) :
    Dispatcher.closeTraceOkList (l1 ++ l2)
      = Dispatcher.closeTraceOkList l1 ++ Dispatcher.closeTraceOkList l2 := by
  induction l1 with
  | nil => rfl
  | cons d rest ih =>
    rw [List.cons_append, Dispatcher.closeTraceOkList, ih, Dispatcher.closeTraceOkList]
    simp [List.append_assoc]

theorem flushEv_mem_Flush (d : Dispatcher) :
    ∀ w ∈ d.allWriters, w.Writer.hasFlush = true →
      Event.flushEv w.Writer.id ∈ d.Flush := by
  induction d using Dispatcher.rec
    (motive_2 := fun ds => ∀ w ∈ Dispatcher.allWritersList ds,
      w.Writer.hasFlush = true →
        Event.flushEv w.Writer.id ∈ Dispatcher.FlushList ds) with
  | mk f ws ds ih =>
    intro w hw hf
    rw [Dispatcher.allWriters] at hw
    rw [Dispatcher.Flush]
    rcases List.mem_append.mp hw with h | h
    · refine List.mem_append_right _ ?_
      rw [flushWriters_eq_flatten]
      exact List.mem_flatten.mpr
        ⟨if w.Writer.hasFlush then [Event.flushEv w.Writer.id] else [],
          List.mem_map_of_mem _ h, by rw [hf]; simp⟩
    · exact List.mem_append_left _ (ih w h hf)
  | nil =>
    rename_i w hw hf
    simp [Dispatcher.allWritersList] at hw
  | cons d rest ihd ihrest =>
    rename_i w hw hf
    rw [Dispatcher.allWritersList] at hw
    rw [Dispatcher.FlushList]
    rcases List.mem_append.mp hw with h | h
    · exact List.mem_append_left _ (ihd w h hf)
    · exact List.mem_append_right _ (ihrest w h hf)

theorem flushEv_mem_closeTraceOk (d : Dispatcher) :
    ∀ w ∈ d.allWriters, w.Writer.hasFlush = true →
      Event.flushEv w.Writer.id ∈ d.closeTraceOk := by
  induction d using Dispatcher.rec
    (motive_2 := fun ds => ∀ w ∈ Dispatcher.allWritersList ds,
      w.Writer.hasFlush = true →
        Event.flushEv w.Writer.id ∈ Dispatcher.closeTraceOkList ds) with
  | mk f ws ds ih =>
    intro w hw hf
    rw [Dispatcher.allWriters] at hw
    rw [Dispatcher.closeTraceOk]
    rcases List.mem_append.mp hw with h | h
    · refine List.mem_append_right _ ?_
      refine List.mem_flatten.mpr ⟨flushCloseW w, List.mem_map_of_mem _ h, ?_⟩
      rw [flushCloseW, hf]
      simp
    · exact List.mem_append_left _ (ih w h hf)
  | nil =>
    rename_i w hw hf
    simp [Dispatcher.allWritersList] at hw
  | cons d rest ihd ihrest =>
    rename_i w hw hf
    rw [Dispatcher.allWritersList] at hw
    rw [Dispatcher.closeTraceOkList]
    rcases List.mem_append.mp hw with h | h
    · exact List.mem_append_left _
        (List.mem_append_right _ (ihd w h hf))
    · exact List.mem_append_right _ (ihrest w h hf)

theorem closeTraceOk_flush_before_close (d : Dispatcher) :
    ∀ w ∈ d.allWriters, w.Writer.hasFlush = true → w.Writer.hasClose = true →
      ∃ p q, d.closeTraceOk = p ++ Event.closeEv w.Writer.id :: q
        ∧ Event.flushEv w.Writer.id ∈ p := by
  induction d using Dispatcher.rec
    (motive_2 := fun ds => ∀ w ∈ Dispatcher.allWritersList ds,
      w.Writer.hasFlush = true → w.Writer.hasClose = true →
        ∃ p q, Dispatcher.closeTraceOkList ds = p ++ Event.closeEv w.Writer.id :: q
          ∧ Event.flushEv w.Writer.id ∈ p) with
  | mk f ws ds ih =>
    intro w hw hf hc
    rw [Dispatcher.allWriters] at hw
    rw [Dispatcher.closeTraceOk]
    rcases List.mem_append.mp hw with h | h
    · obtain ⟨pre, post, hsplit⟩ := List.append_of_mem h
      subst hsplit
      refine ⟨Dispatcher.closeTraceOkList ds ++ (pre.map flushCloseW).flatten
          ++ [Event.flushEv w.Writer.id], (post.map flushCloseW).flatten, ?_, by simp⟩
      rw [List.map_append, List.flatten_append, List.map_cons, List.flatten_cons]
      rw [flushCloseW, hf, hc]
      simp
    · obtain ⟨p, q, hpq, hmem⟩ := ih w h hf hc
      exact ⟨p, q ++ (ws.map flushCloseW).flatten,
        by rw [hpq]; simp, hmem⟩
  | nil =>
    rename_i w hw hf hc
    simp [Dispatcher.allWritersList] at hw
  | cons d rest ihd ihrest =>
    rename_i w hw hf hc
    rw [Dispatcher.allWritersList] at hw
    rw [Dispatcher.closeTraceOkList]
    rcases List.mem_append.mp hw with h | h
    · obtain ⟨p, q, hpq, hmem⟩ := ihd w h hf hc
      refine ⟨d.Flush ++ p, q ++ Dispatcher.closeTraceOkList rest, ?_,
        List.mem_append_right _ hmem⟩
      rw [hpq]
      simp
    · obtain ⟨p, q, hpq, hmem⟩ := ihrest w h hf hc
      refine ⟨d.Flush ++ d.closeTraceOk ++ p, q, ?_, List.mem_append_right _ hmem⟩
      rw [hpq]
      simp

theorem countFlush_append (i : Nat) (tr tr2 : List Event) :
    countFlush i (tr ++ tr2) = countFlush i tr + countFlush i tr2 :=
  List.countP_append _ _ _

theorem one_le_countFlush_of_mem (i : Nat) (tr : List Event)
    (h : Event.flushEv i ∈ tr) : 1 ≤ countFlush i tr := by
  have : 0 < countFlush i tr := List.countP_pos_iff.mpr ⟨Event.flushEv i, h, by simp⟩
  omega

/-- C2: `Close` fails fast — the first non-nil error from a child's `Close` or
a writer sink's `Close` is returned immediately, and the produced trace ends
with the failing participant: no later child and no later writer of the node
is flushed or closed in that invocation. -/
theorem C2_close_fails_fast :
    (∀ (f : Formatter) (ws : List FormattedWriter) (pre post : List Dispatcher)
        (c : Dispatcher) (e : String),
        (∀ d ∈ pre, d.Close.2 = none) → c.Close.2 = some e →
        (Dispatcher.mk f ws (pre ++ c :: post)).Close
          = (closeSeq pre ++ c.Flush ++ c.Close.1, some e))
    ∧ (∀ (f : Formatter) (ds : List Dispatcher) (wpre wpost : List FormattedWriter)
        (w : FormattedWriter) (e : String),
        (∀ d ∈ ds, d.Close.2 = none) →
        (∀ v ∈ wpre, writerCloseOK v = true) →
        w.Writer.hasClose = true → w.Writer.closeErr = some e →
        (Dispatcher.mk f (wpre ++ w :: wpost) ds).Close
          = (closeSeq ds ++ (wpre.map flushCloseW).flatten ++ flushCloseW w, some e)) := by
  constructor
  · intro f ws pre post c e hpre hc
    have h1 : Dispatcher.CloseList (pre ++ c :: post)
        = (closeSeq pre ++ (c.Flush ++ c.Close.1), some e) := by
      rw [CloseList_append_ok (c :: post) pre hpre, CloseList_cons_err c post e hc]
    rw [Dispatcher.Close, h1]
    simp [List.append_assoc]
  · intro f ds wpre wpost w e hds hwpre hc he
    have h1 : Dispatcher.CloseList ds = (closeSeq ds, none) := CloseList_ok ds hds
    have h2 : closeWriters (wpre ++ w :: wpost)
        = ((wpre.map flushCloseW).flatten ++ flushCloseW w, some e) := by
      rw [closeWriters_append_ok (w :: wpost) wpre hwpre,
        closeWriters_cons_err w wpost e hc he]
    rw [Dispatcher.Close, h1, h2]
    simp [List.append_assoc]

/-- C5: `Close` tears down children first — each child flushed, then closed,
recursively — and then the node's own writers, each one's sink flushed when
flushable and then closed when closable; moreover on every error-free `Close`,
each sink that is both flushable and closable is flushed before it is closed,
so no prior explicit `Flush` is needed. -/
theorem C5_close_children_first_then_writers :
    (∀ (f : Formatter) (ws : List FormattedWriter) (ds : List Dispatcher),
        (∀ c ∈ ds, c.Close.2 = none) → (∀ w ∈ ws, writerCloseOK w = true) →
        (Dispatcher.mk f ws ds).Close
          = (closeSeq ds ++ (ws.map flushCloseW).flatten, none))
    ∧ (∀ d : Dispatcher, d.Close.2 = none →
        ∀ w ∈ d.allWriters, w.Writer.hasFlush = true → w.Writer.hasClose = true →
          ∃ p q, d.Close.1 = p ++ Event.closeEv w.Writer.id :: q
            ∧ Event.flushEv w.Writer.id ∈ p) := by
  constructor
  · exact Close_mk_ok
  · intro d h w hw hf hc
    have hok := noCloseErr_of_Close_none d h
    rw [Close_eq_of_noCloseErr d hok]
    exact closeTraceOk_flush_before_close d w hw hf hc

/-- C10: on a successful `Close` of a dispatcher with children, every
flushable sink in a child's subtree is flushed at least twice — once through
the parent's explicit call to the child's `Flush` and once inside the child's
own close path — and when the sink is also closable both flushes appear in the
trace before that sink's close event. -/
theorem C10_child_subtree_sinks_flushed_twice :
    ∀ (f : Formatter) (ws : List FormattedWriter) (ds : List Dispatcher)
      (c : Dispatcher) (w : FormattedWriter),
      c ∈ ds → w ∈ c.allWriters → w.Writer.hasFlush = true →
      (Dispatcher.mk f ws ds).Close.2 = none →
      2 ≤ countFlush w.Writer.id (Dispatcher.mk f ws ds).Close.1
      ∧ (w.Writer.hasClose = true →
          ∃ p q, (Dispatcher.mk f ws ds).Close.1
              = p ++ Event.closeEv w.Writer.id :: q
            ∧ 2 ≤ countFlush w.Writer.id p) := by
  intro f ws ds c w hc hw hfl hok
  have hne := noCloseErr_of_Close_none _ hok
  have hCl := Close_eq_of_noCloseErr _ hne
  have hflush1 : Event.flushEv w.Writer.id ∈ c.Flush := flushEv_mem_Flush c w hw hfl
  have hflush2 : Event.flushEv w.Writer.id ∈ c.closeTraceOk :=
    flushEv_mem_closeTraceOk c w hw hfl
  obtain ⟨pre, post, hsplit⟩ := List.append_of_mem hc
  have htrace : (Dispatcher.mk f ws ds).Close.1
      = Dispatcher.closeTraceOkList pre
        ++ (c.Flush ++ c.closeTraceOk ++ Dispatcher.closeTraceOkList post)
        ++ (ws.map flushCloseW).flatten := by
    rw [hCl, Dispatcher.closeTraceOk, hsplit, closeTraceOkList_append,
      Dispatcher.closeTraceOkList]
  constructor
  · rw [htrace]
    have h1 := one_le_countFlush_of_mem w.Writer.id c.Flush hflush1
    have h2 := one_le_countFlush_of_mem w.Writer.id c.closeTraceOk hflush2
    simp only [countFlush_append]
    omega
  · intro hclose
    obtain ⟨p, q, hpq, hmem⟩ := closeTraceOk_flush_before_close c w hw hfl hclose
    refine ⟨Dispatcher.closeTraceOkList pre ++ c.Flush ++ p,
      q ++ Dispatcher.closeTraceOkList post ++ (ws.map flushCloseW).flatten, ?_, ?_⟩
    · rw [htrace, hpq]
      simp [List.append_assoc]
    · have h1 := one_le_countFlush_of_mem w.Writer.id c.Flush hflush1
      have h2 := one_le_countFlush_of_mem w.Writer.id p hmem
      simp only [countFlush_append]
      omega

/-- C3: `Dispatch` delivers to the node's own writers first, in registration
order, and then recurses into the children, in registration order, depth-first;
for writers [A,B] and children [C] the trace is A's write, then B's write,
then C's recursive dispatch. -/
theorem C3_dispatch_order_writers_then_children :
    (∀ (f : Formatter) (ws : List FormattedWriter) (ds : List Dispatcher)
        (msg : String) (lvl ctx : Nat),
        (Dispatcher.mk f ws ds).Dispatch msg lvl ctx
          = (ws.map (writeStep msg lvl ctx)).flatten
            ++ (ds.map fun d => d.Dispatch msg lvl ctx).flatten)
    ∧ (∀ (f : Formatter) (A B : FormattedWriter) (C : Dispatcher)
        (msg : String) (lvl ctx : Nat),
        (Dispatcher.mk f [A, B] [C]).Dispatch msg lvl ctx
          = writeStep msg lvl ctx A ++ (writeStep msg lvl ctx B
            ++ C.Dispatch msg lvl ctx)) := by
  constructor
  · intro f ws ds msg lvl ctx
    rw [Dispatcher.Dispatch, DispatchList_eq_flatten]
  · intro f A B C msg lvl ctx
    rw [Dispatcher.Dispatch, Dispatcher.DispatchList, Dispatcher.DispatchList]
    simp [List.append_assoc]

/-- C6: `Flush` processes children first, in registration order, recursively,
and then the node's own writers in registration order, emitting a flush only
for sinks with the flush capability and silently skipping the others. -/
theorem C6_flush_children_first_skip_incapable :
    ∀ (f : Formatter) (ws : List FormattedWriter) (ds : List Dispatcher),
      (Dispatcher.mk f ws ds).Flush
        = (ds.map Dispatcher.Flush).flatten
          ++ (ws.map fun w =>
              if w.Writer.hasFlush then [Event.flushEv w.Writer.id] else []).flatten := by
  intro f ws ds
  rw [Dispatcher.Flush, FlushList_eq_flatten, flushWriters_eq_flatten]

/-- C7: `Flush` returns no error and reports none: every event it emits is a
flush of a flush-capable sink owned by the tree — in particular no error
callback and no failure value can arise, so `Flush` completes on every tree. -/
theorem C7_flush_never_errors :
    ∀ (d : Dispatcher), ∀ ev ∈ d.Flush,
      ∃ w, w ∈ d.allWriters ∧ w.Writer.hasFlush = true
        ∧ ev = Event.flushEv w.Writer.id := by
  intro d
  induction d using Dispatcher.rec
    (motive_2 := fun ds => ∀ ev ∈ Dispatcher.FlushList ds,
      ∃ w, w ∈ Dispatcher.allWritersList ds ∧ w.Writer.hasFlush = true
        ∧ ev = Event.flushEv w.Writer.id) with
  | mk f ws ds ih =>
    intro ev hev
    rw [Dispatcher.Flush] at hev
    rw [Dispatcher.allWriters]
    rcases List.mem_append.mp hev with h | h
    · obtain ⟨w, hw, hf, he⟩ := ih ev h
      exact ⟨w, List.mem_append_right _ hw, hf, he⟩
    · rw [flushWriters_eq_flatten] at h
      obtain ⟨l, hl, hin⟩ := List.mem_flatten.mp h
      obtain ⟨w, hw, hwl⟩ := List.mem_map.mp hl
      subst hwl
      rcases hfc : w.Writer.hasFlush with _ | _
      · rw [hfc] at hin; simp at hin
      · rw [hfc] at hin
        simp at hin
        exact ⟨w, List.mem_append_left _ hw, hfc, hin⟩
  | nil =>
    rename_i ev hev
    simp [Dispatcher.FlushList] at hev
  | cons d rest ihd ihrest =>
    rename_i ev hev
    rw [Dispatcher.FlushList] at hev
    rw [Dispatcher.allWritersList]
    rcases List.mem_append.mp hev with h | h
    · obtain ⟨w, hw, hf, he⟩ := ihd ev h
      exact ⟨w, List.mem_append_left _ hw, hf, he⟩
    · obtain ⟨w, hw, hf, he⟩ := ihrest ev h
      exact ⟨w, List.mem_append_right _ hw, hf, he⟩

/-- C9: `Dispatch`, `Flush` and `Close` leave the node's formatter, writers
and children unchanged — the struct has no field recording closure — so a
second `Close` after a successful one re-runs the identical full
flush-and-close traversal instead of being rejected or skipped. -/
theorem C9_operations_leave_state_unchanged :
    ∀ (d : Dispatcher) (msg : String) (lvl ctx : Nat),
      (d.DispatchS msg lvl ctx).1 = d
      ∧ d.FlushS.1 = d
      ∧ d.CloseS.1 = d
      ∧ (d.CloseS.2.2 = none → d.CloseS.1.CloseS = d.CloseS)
      ∧ (d.noCloseErr = true → d.CloseS.1.CloseS.2 = (d.closeTraceOk, none)) := by
  intro d msg lvl ctx
  refine ⟨rfl, rfl, rfl, fun _ => rfl, fun h => ?_⟩
  have := Close_eq_of_noCloseErr d h
  rw [Dispatcher.CloseS, Dispatcher.CloseS, this]

theorem createDispatcherAux_cons_fw (f : Formatter) (r : Receiver)
    (rest : List Receiver) (w : FormattedWriter) (hFW : r.asFormattedWriter = some w) :
    createDispatcherAux f (r :: rest)
      = match createDispatcherAux f rest with
        | .ok (ws, ds) => .ok (w :: ws, ds)
        | .error e => .error e := by
  rw [createDispatcherAux, hFW]

theorem createDispatcherAux_cons_io (f : Formatter) (r : Receiver)
    (rest : List Receiver) (s : Sink) (hFW : r.asFormattedWriter = none)
    (hIo : r.asIoWriter = some s) (hwr : s.wrapErr = none) :
    createDispatcherAux f (r :: rest)
      = match createDispatcherAux f rest with
        | .ok (ws, ds) => .ok (⟨s, s.str ++ " [" ++ f.str ++ "]"⟩ :: ws, ds)
        | .error e => .error e := by
  rw [createDispatcherAux, hFW, hIo]
  simp only [NewFormattedWriter, hwr]

theorem createDispatcherAux_cons_disp (f : Formatter) (r : Receiver)
    (rest : List Receiver) (d : Dispatcher) (hFW : r.asFormattedWriter = none)
    (hIo : r.asIoWriter = none) (hD : r.asDispatcher = some d) :
    createDispatcherAux f (r :: rest)
      = match createDispatcherAux f rest with
        | .ok (ws, ds) => .ok (ws, d :: ds)
        | .error e => .error e := by
  rw [createDispatcherAux, hFW, hIo, hD]

theorem receiverWriter_fw (f : Formatter) (r : Receiver) (w : FormattedWriter)
    (hFW : r.asFormattedWriter = some w) :
    receiverWriter f r = some w ∧ receiverChild r = none := by
  rw [receiverWriter, receiverChild, hFW]
  exact ⟨rfl, rfl⟩

theorem receiverWriter_io (f : Formatter) (r : Receiver) (s : Sink)
    (hFW : r.asFormattedWriter = none) (hIo : r.asIoWriter = some s)
    (hwr : s.wrapErr = none) :
    receiverWriter f r = some ⟨s, s.str ++ " [" ++ f.str ++ "]"⟩
      ∧ receiverChild r = none := by
  rw [receiverWriter, receiverChild, hFW, hIo]
  simp [NewFormattedWriter, hwr]

theorem receiverWriter_disp (f : Formatter) (r : Receiver) (d : Dispatcher)
    (hFW : r.asFormattedWriter = none) (hIo : r.asIoWriter = none)
    (hD : r.asDispatcher = some d) :
    receiverWriter f r = none ∧ receiverChild r = some d := by
  rw [receiverWriter, receiverChild, hFW, hIo]
  exact ⟨rfl, hD⟩

theorem createDispatcherAux_ok (f : Formatter) (rs : List Receiver)
    (hall : ∀ r ∈ rs, receiverOK r = true) :
    createDispatcherAux f rs
      = .ok (rs.filterMap (receiverWriter f), rs.filterMap receiverChild) := by
  induction rs with
  | nil => rfl
  | cons r rest ih =>
    have hr := hall r (List.mem_cons_self r rest)
    have hrest := ih fun x hx => hall x (List.mem_cons_of_mem r hx)
    rcases hFW : r.asFormattedWriter with _ | w
    · rcases hIo : r.asIoWriter with _ | s
      · rcases hD : r.asDispatcher with _ | d
        · simp [receiverOK, hFW, hIo, hD] at hr
        · obtain ⟨hrw, hrc⟩ := receiverWriter_disp f r d hFW hIo hD
          rw [createDispatcherAux_cons_disp f r rest d hFW hIo hD, hrest,
            List.filterMap_cons, List.filterMap_cons, hrw, hrc]
      · have hwr : s.wrapErr = none := by
          simp [receiverOK, hFW, hIo, Option.isNone_iff_eq_none] at hr
          exact hr
        obtain ⟨hrw, hrc⟩ := receiverWriter_io f r s hFW hIo hwr
        rw [createDispatcherAux_cons_io f r rest s hFW hIo hwr, hrest,
          List.filterMap_cons, List.filterMap_cons, hrw, hrc]
    · obtain ⟨hrw, hrc⟩ := receiverWriter_fw f r w hFW
      rw [createDispatcherAux_cons_fw f r rest w hFW, hrest,
        List.filterMap_cons, List.filterMap_cons, hrw, hrc]

theorem createDispatcherAux_append_err (f : Formatter) (l2 : List Receiver)
    (e : String) (h2 : createDispatcherAux f l2 = .error e) :
    ∀ l1 : List Receiver, (∀ r ∈ l1, receiverOK r = true) →
      createDispatcherAux f (l1 ++ l2) = .error e := by
  intro l1
  induction l1 with
  | nil => intro _; simpa using h2
  | cons r rest ih =>
    intro hall
    have hr := hall r (List.mem_cons_self r rest)
    have hrest := ih fun x hx => hall x (List.mem_cons_of_mem r hx)
    rcases hFW : r.asFormattedWriter with _ | w
    · rcases hIo : r.asIoWriter with _ | s
      · rcases hD : r.asDispatcher with _ | d
        · simp [receiverOK, hFW, hIo, hD] at hr
        · rw [List.cons_append,
            createDispatcherAux_cons_disp f r (rest ++ l2) d hFW hIo hD, hrest]
      · have hwr : s.wrapErr = none := by
          simp [receiverOK, hFW, hIo, Option.isNone_iff_eq_none] at hr
          exact hr
        rw [List.cons_append,
          createDispatcherAux_cons_io f r (rest ++ l2) s hFW hIo hwr, hrest]
    · rw [List.cons_append,
        createDispatcherAux_cons_fw f r (rest ++ l2) w hFW, hrest]

theorem receiver_counts (f : Formatter) (rs : List Receiver)
    (hall : ∀ r ∈ rs, receiverOK r = true) :
    (rs.filterMap (receiverWriter f)).length
      + (rs.filterMap receiverChild).length = rs.length := by
  induction rs with
  | nil => rfl
  | cons r rest ih =>
    have hr := hall r (List.mem_cons_self r rest)
    have hrest := ih fun x hx => hall x (List.mem_cons_of_mem r hx)
    rw [List.filterMap_cons, List.filterMap_cons]
    rcases hFW : r.asFormattedWriter with _ | w
    · rcases hIo : r.asIoWriter with _ | s
      · rcases hD : r.asDispatcher with _ | d
        · simp [receiverOK, hFW, hIo, hD] at hr
        · obtain ⟨hrw, hrc⟩ := receiverWriter_disp f r d hFW hIo hD
          rw [hrw, hrc]
          simp only [List.length_cons]
          omega
      · have hwr : s.wrapErr = none := by
          simp [receiverOK, hFW, hIo, Option.isNone_iff_eq_none] at hr
          exact hr
        obtain ⟨hrw, hrc⟩ := receiverWriter_io f r s hFW hIo hwr
        rw [hrw, hrc]
        simp only [List.length_cons]
        omega
    · obtain ⟨hrw, hrc⟩ := receiverWriter_fw f r w hFW
      rw [hrw, hrc]
      simp only [List.length_cons]
      omega

/-- C4: construction fails with the nil-formatter error when the formatter is
absent, with the empty-receivers error when the list is empty, classifies each
receiver with priority `*FormattedWriter`, then `io.Writer` (wrapped with the
shared formatter, propagating any wrapping error), then `DispatcherInterface`,
fails with the unsupported-receiver error otherwise, and for k writer-like and
m dispatcher-like receivers yields writer and child lists of lengths k and m in
registration order. -/
theorem C4_createDispatcher_classification :
    (∀ rs : List Receiver,
        createDispatcher none rs = .error "Formatter can not be nil")
    ∧ (∀ f : Formatter,
        createDispatcher (some f) [] = .error "Receivers can not be nil or empty")
    ∧ (∀ (f : Formatter) (pre post : List Receiver) (r : Receiver),
        (∀ x ∈ pre, receiverOK x = true) →
        r.asFormattedWriter = none → r.asIoWriter = none → r.asDispatcher = none →
        createDispatcher (some f) (pre ++ r :: post)
          = .error "Method can receive either io.Writer or DispatcherInterface")
    ∧ (∀ (f : Formatter) (pre post : List Receiver) (r : Receiver) (s : Sink) (e : String),
        (∀ x ∈ pre, receiverOK x = true) →
        r.asFormattedWriter = none → r.asIoWriter = some s → s.wrapErr = some e →
        createDispatcher (some f) (pre ++ r :: post) = .error e)
    ∧ (∀ (f : Formatter) (rs : List Receiver), rs ≠ [] →
        (∀ r ∈ rs, receiverOK r = true) →
        createDispatcher (some f) rs
            = .ok (.mk f (rs.filterMap (receiverWriter f)) (rs.filterMap receiverChild))
          ∧ (rs.filterMap (receiverWriter f)).length
              + (rs.filterMap receiverChild).length = rs.length) := by
  refine ⟨fun rs => rfl, fun f => rfl, ?_, ?_, ?_⟩
  · intro f pre post r hpre hFW hIo hD
    have hhead : createDispatcherAux f (r :: post)
        = .error "Method can receive either io.Writer or DispatcherInterface" := by
      rw [createDispatcherAux, hFW, hIo, hD]
    have := createDispatcherAux_append_err f (r :: post) _ hhead pre hpre
    rw [createDispatcher]
    have hlen : (pre ++ r :: post).length ≠ 0 := by simp
    rw [if_neg hlen, this]
  · intro f pre post r s e hpre hFW hIo hwr
    have hhead : createDispatcherAux f (r :: post) = .error e := by
      rw [createDispatcherAux, hFW, hIo]
      simp only [NewFormattedWriter, hwr]
    have := createDispatcherAux_append_err f (r :: post) e hhead pre hpre
    rw [createDispatcher]
    have hlen : (pre ++ r :: post).length ≠ 0 := by simp
    rw [if_neg hlen, this]
  · intro f rs hne hall
    refine ⟨?_, receiver_counts f rs hall⟩
    rw [createDispatcher]
    have hlen : rs.length ≠ 0 := by
      simpa [List.length_eq_zero] using hne
    rw [if_neg hlen, createDispatcherAux_ok f rs hall]

theorem writersString_eq_foldr (ws : List FormattedWriter) :
    writersString ws
      = (ws.map fun w => "        ->" ++ w.str ++ "\n").foldr (· ++ ·) "" := by
  induction ws with
  | nil => rfl
  | cons w rest ih => rw [writersString, ih, List.map_cons, List.foldr_cons]

theorem toStringList_eq_foldr (ds : List Dispatcher) :
    Dispatcher.toStringList ds
      = (ds.map fun d => "        ->" ++ d.toString).foldr (· ++ ·) "" := by
  induction ds with
  | nil => rfl
  | cons d rest ih => rw [Dispatcher.toStringList, ih, List.map_cons, List.foldr_cons]

/-- C8: the diagnostic rendering lists the formatter description first, then
the dispatchers section — the text "none" when there are no children,
otherwise the children's renderings produced recursively, each child indented
under its section header — then the writers section — "none" when there are no
writers, otherwise the indented writer descriptions. -/
theorem C8_string_rendering :
    ∀ (f : Formatter) (ws : List FormattedWriter) (ds : List Dispatcher),
      (Dispatcher.mk f ws ds).toString
        = "Formatter: " ++ f.str ++ "\n"
          ++ "    ->Dispatchers:"
          ++ (if ds.length = 0 then "none\n"
              else "\n" ++ (ds.map fun d => "        ->" ++ d.toString).foldr (· ++ ·) "")
          ++ "    ->Writers:"
          ++ (if ws.length = 0 then "none\n"
              else "\n"
                ++ (ws.map fun w => "        ->" ++ w.str ++ "\n").foldr (· ++ ·) "") := by
  intro f ws ds
  rw [Dispatcher.toString]
  by_cases hd : ds.length = 0 <;> by_cases hw : ws.length = 0 <;>
    simp [-String.reduceAppend, hd, hw, toStringList_eq_foldr, writersString_eq_foldr,
      String.append_assoc]

/-- Witness for C1 at a two-level tree, a failing writer, and a 3-message run. -/
theorem C1_dispatch_error_isolation_witness :
    Event.write 1 "hello" 0 0 ∈ dParent.Dispatch "hello" 0 0
    ∧ Event.errCb "write failed"
        ∈ (Dispatcher.mk ⟨"fmt"⟩ [⟨sinkWriteFail 9, "wf"⟩] []).Dispatch "m" 1 2
    ∧ countErrCb
        ((Dispatcher.mk ⟨"fmt"⟩ [⟨sinkWriteFail 9, "wf"⟩, ⟨sinkOK 1, "w1"⟩] []).DispatchMany
          [("a", 0, 0), ("b", 1, 1), ("c", 2, 2)]) = 3
    ∧ countWrite 1
        ((Dispatcher.mk ⟨"fmt"⟩ [⟨sinkWriteFail 9, "wf"⟩, ⟨sinkOK 1, "w1"⟩] []).DispatchMany
          [("a", 0, 0), ("b", 1, 1), ("c", 2, 2)]) = 3 := by
  have h3 := C1_dispatch_error_isolation.2.2 ⟨"fmt"⟩ ⟨sinkWriteFail 9, "wf"⟩ ⟨sinkOK 1, "w1"⟩
    (fun m l c => rfl) (fun m l c => rfl) (by decide) [("a", 0, 0), ("b", 1, 1), ("c", 2, 2)]
  refine ⟨?_, ?_, h3.1, h3.2⟩
  · exact C1_dispatch_error_isolation.1 dParent "hello" 0 0 ⟨sinkOK 1, "w1"⟩
      (by simp [dParent, dLeaf, Dispatcher.allWriters, Dispatcher.allWritersList])
  · exact C1_dispatch_error_isolation.2.1 _ "m" 1 2 ⟨sinkWriteFail 9, "wf"⟩ "write failed"
      (by simp [Dispatcher.Writers]) rfl

/-- Witness for C2: a close-failing child and a close-failing writer. -/
theorem C2_close_fails_fast_witness :
    (Dispatcher.mk ⟨"fmt"⟩ [] ([] ++ dLeafBad :: [])).Close
      = (closeSeq [] ++ dLeafBad.Flush ++ dLeafBad.Close.1, some "close failed")
    ∧ (Dispatcher.mk ⟨"fmt"⟩ ([] ++ (⟨sinkCloseFail 7, "w7"⟩ : FormattedWriter) :: []) []).Close
      = (closeSeq [] ++ (([] : List FormattedWriter).map flushCloseW).flatten
          ++ flushCloseW ⟨sinkCloseFail 7, "w7"⟩, some "close failed") :=
  ⟨C2_close_fails_fast.1 ⟨"fmt"⟩ [] [] [] dLeafBad "close failed"
      (by intro d hd; simp at hd) (by decide),
   C2_close_fails_fast.2 ⟨"fmt"⟩ [] [] [] ⟨sinkCloseFail 7, "w7"⟩ "close failed"
      (by intro d hd; simp at hd) (by intro v hv; simp at hv) rfl rfl⟩

/-- Witness for C4: each construction outcome at concrete receivers. -/
theorem C4_createDispatcher_classification_witness :
    createDispatcher none [rFW] = .error "Formatter can not be nil"
    ∧ createDispatcher (some ⟨"f"⟩) [] = .error "Receivers can not be nil or empty"
    ∧ createDispatcher (some ⟨"f"⟩) ([rFW] ++ rBad :: [rDisp])
        = .error "Method can receive either io.Writer or DispatcherInterface"
    ∧ createDispatcher (some ⟨"f"⟩) ([rFW] ++ rWrapBad :: []) = .error "wrap failed"
    ∧ createDispatcher (some ⟨"f"⟩) [rFW, rIo, rDisp]
        = .ok (.mk ⟨"f"⟩ ([rFW, rIo, rDisp].filterMap (receiverWriter ⟨"f"⟩))
            ([rFW, rIo, rDisp].filterMap receiverChild))
    ∧ ([rFW, rIo, rDisp].filterMap (receiverWriter ⟨"f"⟩)).length
        + ([rFW, rIo, rDisp].filterMap receiverChild).length = [rFW, rIo, rDisp].length := by
  have hOK : ∀ r ∈ [rFW, rIo, rDisp], receiverOK r = true := by
    intro r hr
    simp at hr
    rcases hr with rfl | rfl | rfl <;> rfl
  have h5 := C4_createDispatcher_classification.2.2.2.2 ⟨"f"⟩ [rFW, rIo, rDisp]
    (by simp) hOK
  refine ⟨C4_createDispatcher_classification.1 [rFW],
    C4_createDispatcher_classification.2.1 ⟨"f"⟩, ?_, ?_, h5.1, h5.2⟩
  · exact C4_createDispatcher_classification.2.2.1 ⟨"f"⟩ [rFW] [rDisp] rBad
      (by intro x hx; simp at hx; subst hx; rfl) rfl rfl rfl
  · exact C4_createDispatcher_classification.2.2.2.1 ⟨"f"⟩ [rFW] [] rWrapBad sWrapBad
      "wrap failed" (by intro x hx; simp at hx; subst hx; rfl) rfl rfl rfl

/-- Witness for C5: an error-free parent-and-child teardown. -/
theorem C5_close_children_first_then_writers_witness :
    (Dispatcher.mk ⟨"fmt"⟩ [⟨sinkOK 2, "w2"⟩] [dLeaf]).Close
      = (closeSeq [dLeaf] ++ ([(⟨sinkOK 2, "w2"⟩ : FormattedWriter)].map flushCloseW).flatten,
         none)
    ∧ ∃ p q, dParent.Close.1 = p ++ Event.closeEv 1 :: q ∧ Event.flushEv 1 ∈ p := by
  constructor
  · exact C5_close_children_first_then_writers.1 ⟨"fmt"⟩ [⟨sinkOK 2, "w2"⟩] [dLeaf]
      (by intro c hc; simp at hc; subst hc; rfl)
      (by intro w hw; simp at hw; subst hw; rfl)
  · exact C5_close_children_first_then_writers.2 dParent (by decide) ⟨sinkOK 1, "w1"⟩
      (by simp [dParent, dLeaf, Dispatcher.allWriters, Dispatcher.allWritersList]) rfl rfl

/-- Witness for C7: a concrete flush event of a concrete tree. -/
theorem C7_flush_never_errors_witness :
    ∃ w, w ∈ dParent.allWriters ∧ w.Writer.hasFlush = true
      ∧ Event.flushEv 1 = Event.flushEv w.Writer.id :=
  C7_flush_never_errors dParent (Event.flushEv 1) (by decide)

/-- Witness for C9: a double close of a concrete tree. -/
theorem C9_operations_leave_state_unchanged_witness :
    dParent.CloseS.1.CloseS = dParent.CloseS
    ∧ dParent.CloseS.1.CloseS.2 = (dParent.closeTraceOk, none) :=
  ⟨(C9_operations_leave_state_unchanged dParent "m" 0 0).2.2.2.1 (by decide),
   (C9_operations_leave_state_unchanged dParent "m" 0 0).2.2.2.2 (by decide)⟩

/-- Witness for C10: the leaf sink of a parent-child tree is flushed twice
before being closed. -/
theorem C10_child_subtree_sinks_flushed_twice_witness :
    2 ≤ countFlush 1 (Dispatcher.mk ⟨"fmt"⟩ [⟨sinkOK 2, "w2"⟩] [dLeaf]).Close.1
    ∧ ∃ p q, (Dispatcher.mk ⟨"fmt"⟩ [⟨sinkOK 2, "w2"⟩] [dLeaf]).Close.1
        = p ++ Event.closeEv 1 :: q ∧ 2 ≤ countFlush 1 p := by
  have h := C10_child_subtree_sinks_flushed_twice ⟨"fmt"⟩ [⟨sinkOK 2, "w2"⟩] [dLeaf]
    dLeaf ⟨sinkOK 1, "w1"⟩ (by simp)
    (by simp [dLeaf, Dispatcher.allWriters, Dispatcher.allWritersList]) rfl (by decide)
  exact ⟨h.1, h.2 rfl⟩

end Dispatchers
